import Mathlib

/-!
Shallow embedding of the input-validation and batch-orchestration pipeline of
`cmd/get-commenters.go` (jenkins-contribution-extractor).

The CSV layer is embedded after parsing: a file is a `headerLine : List String`
followed by `records : List (List String)` (the data rows, the header already
consumed by the first `Read` call).  The Go CSV reader fixes the field count
from the first record it reads (the header), so `ReadAll` fails when a later
record has a different field count; this is the `readAllFailed` branch.

External collaborators that are not part of the shown source file are kept at
their interface boundary: the organization-name predicate `isValidOrgFormat`
is a parameter (its definition lives outside the shown file), the quota guard
and the commenter-fetch collaborator appear as fields of an environment record
consumed by `performAction`, which is embedded as the trace of observable
events it produces.
-/

set_option autoImplicit false

namespace GetCommenters

/-- The fixed reference schema, `referenceCSVheader` in the source. -/
def referenceCSVheader : List String :=
  ["org", "repository", "number", "url", "state", "created_at",
   "merged_at", "user.login", "month_year", "title"]

/-- The field-by-field loop of `validateHeader`: walk the zipped header and
reference, returning false at the first mismatching field. -/
def headerFieldsMatch : List (String × String) → Bool
  | [] => true
  | (v, ref) :: rest => if v ≠ ref then false else headerFieldsMatch rest

/-- Embeds `validateHeader` (source lines 198-214): length check, then a
left-to-right field comparison that short-circuits on the first mismatch.
The verbose diagnostics are output only and are not modelled. -/
def validateHeader (header referenceHeader : List String) : Bool :=
  if header.length ≠ referenceHeader.length then false
  else headerFieldsMatch (header.zip referenceHeader)

/-- Embeds `strings.ToLower`: Go lower-cases a string rune by rune.  Only the
ASCII case mapping can influence the ASCII-only project character class, so
the per-char mapping is extensionally adequate here. -/
def toLower (s : String) : String := String.mk (s.toList.map Char.toLower)

/-- Go regexp word character class, ASCII `[0-9A-Za-z_]`. -/
def isWordChar (c : Char) : Bool :=
  ('a' ≤ c && c ≤ 'z') || ('A' ≤ c && c ≤ 'Z') || ('0' ≤ c && c ≤ '9') || c == '_'

/-- Full match of the anchored project regex (source line 144), a
nonempty string of word characters, hyphens and dots. -/
def prjRegexpMatches (s : String) : Bool :=
  !s.isEmpty && s.toList.all (fun c => isWordChar c || c == '-' || c == '.')

/-- Full match of the anchored PR-number regex (source line 145), a
nonempty string of decimal digits. -/
def prRegexpMatches (s : String) : Bool :=
  !s.isEmpty && s.toList.all (fun c => '0' ≤ c && c ≤ '9')

/-- The distinct failure exits of `loadPrListFile`, one constructor per
`return nil, false` site reachable from parsed input. -/
inductive LoadError where
  | headerIncorrect
  | readAllFailed
  | noDataAfterHeader
  | invalidOrg (org : String)
  | invalidPrj (prj : String)
  | invalidNbr (nbr : String)
deriving DecidableEq, Repr

/-- The row loop of `loadPrListFile` (source lines 148-188): each data line is
checked field by field (org, then project, then number), returning at the
first failing field; a passing line contributes the formatted
org/project/number string. -/
def checkRows (isValidOrgFormat : String → Bool) :
    List (List String) → Except LoadError (List String)
  | [] => Except.ok []
  | dataLine :: rest =>
    let org := dataLine.getD 0 ""
    if !isValidOrgFormat org then Except.error (LoadError.invalidOrg org)
    else
      let prj := dataLine.getD 1 ""
      if !prjRegexpMatches (toLower prj) then Except.error (LoadError.invalidPrj prj)
      else
        let prNbr := dataLine.getD 2 ""
        if !prRegexpMatches prNbr then Except.error (LoadError.invalidNbr prNbr)
        else
          match checkRows isValidOrgFormat rest with
          | Except.error e => Except.error e
          | Except.ok prList =>
              Except.ok ((org ++ "/" ++ prj ++ "/" ++ prNbr) :: prList)

/-- Embeds `loadPrListFile` (source lines 99-195) from parsed CSV data.
`Except.ok l` stands for the Go return `(l, true)` and `Except.error e` for a
`(nil, false)` return, the error constructor recording which exit was taken.
The file-open failure has no counterpart for already-parsed input. -/
def loadPrListFile (isValidOrgFormat : String → Bool)
    (headerLine : List String) (records : List (List String)) :
    Except LoadError (List String) :=
  if !validateHeader headerLine referenceCSVheader then
    Except.error LoadError.headerIncorrect
  else if records.any (fun r => r.length ≠ headerLine.length) then
    Except.error LoadError.readAllFailed
  else if records.length < 2 then
    Except.error LoadError.noDataAfterHeader
  else
    checkRows isValidOrgFormat records

/-- The accounting tallies of `performAction` (source lines 251-253). -/
structure BatchAccounting where
  nbrPR_noComment : Nat
  nbrPR_withComments : Nat
  totalComments : Int
deriving DecidableEq, Repr

/-- The accounting part of the batch loop (source lines 254-264), folded over
the comment counts the fetch collaborator returns, in work-list order. -/
def accountLoop (acc : BatchAccounting) : List Int → BatchAccounting
  | [] => acc
  | nbrOfComments :: rest =>
      let acc1 : BatchAccounting :=
        { acc with totalComments := acc.totalComments + nbrOfComments }
      let acc2 : BatchAccounting :=
        if nbrOfComments == 0 then
          { acc1 with nbrPR_noComment := acc1.nbrPR_noComment + 1 }
        else
          { acc1 with nbrPR_withComments := acc1.nbrPR_withComments + 1 }
      accountLoop acc2 rest

/-- Observable events of one `performAction` run, in order.  Progress-bar and
verbose-mode output are pure presentation and are not modelled. -/
inductive Event where
  | errorMessage
  | exitProcess (code : Nat)
  | removeOutput
  | quotaCheck (nbrItems : Nat)
  | quotaAbort
  | fetch (prLine : String) (isAppend : Bool) (isNoHeader : Bool)
  | report (acc : BatchAccounting)
deriving DecidableEq, Repr

/-- True exactly on fetch-collaborator invocations. -/
def Event.isFetch : Event → Bool
  | Event.fetch _ _ _ => true
  | _ => false

/-- True exactly on quota pre-flight checks. -/
def Event.isQuotaCheck : Event → Bool
  | Event.quotaCheck _ => true
  | _ => false

/-- Inputs of one `performAction` run: the parsed input file, the global
flags, and the two external collaborators the orchestrator consults. -/
structure Env where
  headerLine : List String
  records : List (List String)
  isValidOrgFormat : String → Bool
  globalIsAppend : Bool
  globalIsNoHeader : Bool
  outputFileExists : Bool
  quotaSufficient : Bool
  commentCount : String → Int

/-- Embeds `performAction` (source lines 220-284) as the ordered trace of its
observable effects.  A failed load prints a diagnostic and exits with status 1
(source lines 229-232).  Otherwise the output file is removed when it exists
and append mode is off, and the local append flag is then forced to true
(lines 234-241).  `checkIfSufficientQuota` is not part of the shown source;
modelled from the spec: it is a pre-flight gate called once with the
work-list length that terminates the process when the remaining quota does
not cover the projected cost, so an insufficient quota yields no further
events.  The batch loop then invokes the fetch collaborator once per work
item in order and the final tallies are reported. -/
def performAction (env : Env) : List Event :=
  match loadPrListFile env.isValidOrgFormat env.headerLine env.records with
  | Except.error _ => [Event.errorMessage, Event.exitProcess 1]
  | Except.ok prList =>
      let prepEvents : List Event :=
        if !env.globalIsAppend then
          if env.outputFileExists then [Event.removeOutput] else []
        else []
      let isAppend : Bool :=
        if !env.globalIsAppend then true else env.globalIsAppend
      prepEvents ++ Event.quotaCheck prList.length ::
        (if !env.quotaSufficient then [Event.quotaAbort]
         else
           prList.map (fun prLine => Event.fetch prLine isAppend env.globalIsNoHeader)
             ++ [Event.report (accountLoop ⟨0, 0, 0⟩ (prList.map env.commentCount))])

deriving instance DecidableEq for Except

/-- A single data row is formatted as org with repeated number nbr. -/
def sampleRow (nbr : String) : List String :=
  ["acme", "widget-api", nbr, "url", "open", "2023-01", "2023-02",
   "alice", "2023-01", "title"]

/-! ### Helper lemmas -/

theorem headerFieldsMatch_zip_iff {H S : List String} (hlen : H.length = S.length) :
    headerFieldsMatch (H.zip S) = true ↔ H = S := by
  induction H generalizing S with
  | nil =>
    cases S with
    | nil => simp [headerFieldsMatch]
    | cons s ss => simp at hlen
  | cons v hs ih =>
    cases S with
    | nil => simp at hlen
    | cons s ss =>
      have hlen' : hs.length = ss.length := by simpa using hlen
      simp only [List.zip_cons_cons, headerFieldsMatch]
      by_cases hv : v = s
      · subst hv
        rw [if_neg (by simp)]
        rw [show List.zipWith Prod.mk hs ss = hs.zip ss from rfl]
        rw [ih hlen']
        simp
      · rw [if_pos hv]
        simp [hv]

theorem validateHeader_eq_true_iff (H S : List String) :
    validateHeader H S = true ↔ H = S := by
  unfold validateHeader
  by_cases hlen : H.length = S.length
  · rw [if_neg (by simpa using hlen)]
    exact headerFieldsMatch_zip_iff hlen
  · rw [if_pos hlen]
    simp only [Bool.false_eq_true, false_iff]
    intro h
    exact hlen (by rw [h])

/-! ### C2 -/

/-- C2: validateHeader H S returns true if and only if H has the same number
of fields as S and every field of H equals the field of S at the same
position (left to right, case-sensitive string equality). -/
theorem validateHeader_true_iff_pointwise (H S : List String) :
    validateHeader H S = true ↔
      (H.length = S.length ∧
        ∀ (i : Nat) (h1 : i < H.length) (h2 : i < S.length),
          H.get ⟨i, h1⟩ = S.get ⟨i, h2⟩) := by
  rw [validateHeader_eq_true_iff]
  constructor
  · rintro rfl
    exact ⟨rfl, fun _ _ _ => rfl⟩
  · rintro ⟨hlen, hpt⟩
    exact List.ext_get hlen hpt

/-- Witness for C2 at the reference header itself. -/
theorem validateHeader_true_iff_pointwise_witness :
    validateHeader referenceCSVheader referenceCSVheader = true :=
  (validateHeader_true_iff_pointwise referenceCSVheader referenceCSVheader).mpr
    ⟨rfl, fun _ _ _ => rfl⟩

/-- Conjunction of the three per-row field checks of the row loop. -/
def rowPasses (isValidOrgFormat : String → Bool) (r : List String) : Bool :=
  isValidOrgFormat (r.getD 0 "") &&
    prjRegexpMatches (toLower (r.getD 1 "")) &&
    prRegexpMatches (r.getD 2 "")

theorem rowPasses_of_checkRows_ok {p : String → Bool} {rows : List (List String)}
    {l : List String} (h : checkRows p rows = Except.ok l) :
    ∀ r ∈ rows, rowPasses p r = true := by
  induction rows generalizing l with
  | nil => intro r hr; cases hr
  | cons row rest ih =>
    intro r hr
    rw [checkRows] at h
    by_cases h0 : p (row.getD 0 "") = true
    · by_cases h1 : prjRegexpMatches (toLower (row.getD 1 "")) = true
      · by_cases h2 : prRegexpMatches (row.getD 2 "") = true
        · simp only [h0, h1, h2, Bool.not_true, Bool.false_eq_true, if_false] at h
          cases hrest : checkRows p rest with
          | error e => rw [hrest] at h; cases h
          | ok l2 =>
            rcases List.mem_cons.mp hr with rfl | hr2
            · unfold rowPasses
              rw [h0, h1, h2]
              rfl
            · exact ih hrest r hr2
        · rw [Bool.not_eq_true] at h2
          simp only [h0, h1, h2] at h
          simp at h
      · rw [Bool.not_eq_true] at h1
        simp only [h0, h1] at h
        simp at h
    · rw [Bool.not_eq_true] at h0
      simp only [h0] at h
      simp at h

theorem checkRows_of_loadPrListFile_ok {p : String → Bool} {header : List String}
    {records : List (List String)} {l : List String}
    (h : loadPrListFile p header records = Except.ok l) :
    checkRows p records = Except.ok l := by
  unfold loadPrListFile at h
  split at h
  · cases h
  · split at h
    · cases h
    · split at h
      · cases h
      · exact h

theorem load_error_of_bad_row (p : String → Bool) (header : List String)
    (records : List (List String)) (row : List String)
    (hmem : row ∈ records) (hfail : rowPasses p row = false) :
    ∃ e, loadPrListFile p header records = Except.error e := by
  cases hres : loadPrListFile p header records with
  | error e => exact ⟨e, rfl⟩
  | ok l =>
    exfalso
    have hrow := rowPasses_of_checkRows_ok (checkRows_of_loadPrListFile_ok hres) row hmem
    rw [hrow] at hfail
    cases hfail

/-! ### C3 -/

/-- C3: a data row whose number field (third field) does not fully match
the anchored digits regex makes loadPrListFile fail, whatever the
organization predicate, the header and the other rows are. -/
theorem loadPrListFile_fails_on_bad_number
    (p : String → Bool) (header : List String) (records : List (List String))
    (row : List String) (hmem : row ∈ records)
    (hbad : prRegexpMatches (row.getD 2 "") = false) :
    ∃ e, loadPrListFile p header records = Except.error e := by
  apply load_error_of_bad_row p header records row hmem
  unfold rowPasses
  rw [hbad]
  simp

/-- Witness for C3: a file whose second data row has number field 12a. -/
theorem loadPrListFile_fails_on_bad_number_witness :
    ∃ e, loadPrListFile (fun s => !s.isEmpty) referenceCSVheader
      [sampleRow "42", sampleRow "12a"] = Except.error e :=
  loadPrListFile_fails_on_bad_number (fun s => !s.isEmpty) referenceCSVheader
    [sampleRow "42", sampleRow "12a"] (sampleRow "12a") (by decide) (by decide)

/-! ### C4 -/

/-- C4: a data row whose project field (second field), lower-cased, does not
fully match the anchored word-hyphen-dot regex makes loadPrListFile fail,
whatever the organization predicate, the header and the other rows are. -/
theorem loadPrListFile_fails_on_bad_project
    (p : String → Bool) (header : List String) (records : List (List String))
    (row : List String) (hmem : row ∈ records)
    (hbad : prjRegexpMatches (toLower (row.getD 1 "")) = false) :
    ∃ e, loadPrListFile p header records = Except.error e := by
  apply load_error_of_bad_row p header records row hmem
  unfold rowPasses
  rw [hbad]
  simp

/-- Witness for C4: a file whose second data row has a project field with a
space, rejected by the project regex. -/
theorem loadPrListFile_fails_on_bad_project_witness :
    ∃ e, loadPrListFile (fun s => !s.isEmpty) referenceCSVheader
      [sampleRow "42",
       ["acme", "bad name", "7", "url", "open", "2023-01", "2023-02",
        "alice", "2023-01", "title"]] = Except.error e :=
  loadPrListFile_fails_on_bad_project (fun s => !s.isEmpty) referenceCSVheader
    [sampleRow "42",
     ["acme", "bad name", "7", "url", "open", "2023-01", "2023-02",
      "alice", "2023-01", "title"]]
    ["acme", "bad name", "7", "url", "open", "2023-01", "2023-02",
     "alice", "2023-01", "title"] (by decide) (by decide)

/-! ### C5 -/

/-- C5: row validation is all-or-nothing and aborts at the first failing
field.  A single row failing any of the three field checks makes the whole
load fail with no partial work list; and on a failing row the reported error
is that of its first failing field (org before project before number),
independently of the remaining fields and rows. -/
theorem loadPrListFile_allOrNothing_firstFieldAbort :
    (∀ (p : String → Bool) (header : List String) (records : List (List String))
       (row : List String), row ∈ records → rowPasses p row = false →
       ∃ e, loadPrListFile p header records = Except.error e) ∧
    (∀ (p : String → Bool) (row : List String) (rest : List (List String)),
       p (row.getD 0 "") = false →
       checkRows p (row :: rest) = Except.error (LoadError.invalidOrg (row.getD 0 ""))) ∧
    (∀ (p : String → Bool) (row : List String) (rest : List (List String)),
       p (row.getD 0 "") = true →
       prjRegexpMatches (toLower (row.getD 1 "")) = false →
       checkRows p (row :: rest) = Except.error (LoadError.invalidPrj (row.getD 1 ""))) ∧
    (∀ (p : String → Bool) (row : List String) (rest : List (List String)),
       p (row.getD 0 "") = true →
       prjRegexpMatches (toLower (row.getD 1 "")) = true →
       prRegexpMatches (row.getD 2 "") = false →
       checkRows p (row :: rest) = Except.error (LoadError.invalidNbr (row.getD 2 ""))) := by
  refine ⟨load_error_of_bad_row, ?_, ?_, ?_⟩
  · intro p row rest h0
    rw [checkRows]
    simp only [h0]
    simp
  · intro p row rest h0 h1
    rw [checkRows]
    simp only [h0, h1]
    simp
  · intro p row rest h0 h1 h2
    rw [checkRows]
    simp only [h0, h1, h2]
    simp

/-- Witness for C5: a row with number field 4a2 between two valid rows makes
the whole load fail, and a failing org field is reported before the also
failing project and number fields of the same row. -/
theorem loadPrListFile_allOrNothing_firstFieldAbort_witness :
    (∃ e, loadPrListFile (fun s => !s.isEmpty) referenceCSVheader
       [sampleRow "42", sampleRow "4a2", sampleRow "43"] = Except.error e) ∧
    checkRows (fun s => !s.isEmpty)
      [["", "bad name", "4a2", "url", "open", "2023-01", "2023-02",
        "alice", "2023-01", "title"]] =
      Except.error (LoadError.invalidOrg "") :=
  ⟨loadPrListFile_allOrNothing_firstFieldAbort.1 (fun s => !s.isEmpty)
     referenceCSVheader [sampleRow "42", sampleRow "4a2", sampleRow "43"]
     (sampleRow "4a2") (by decide) (by decide),
   loadPrListFile_allOrNothing_firstFieldAbort.2.1 (fun s => !s.isEmpty)
     ["", "bad name", "4a2", "url", "open", "2023-01", "2023-02",
      "alice", "2023-01", "title"] [] (by decide)⟩

/-! ### C6 -/

/-- C6: a file with a valid header and zero data rows is rejected with the
distinct empty-data error, for every organization predicate. -/
theorem loadPrListFile_headerOnly_error (p : String → Bool) (header : List String)
    (hvalid : validateHeader header referenceCSVheader = true) :
    loadPrListFile p header [] = Except.error LoadError.noDataAfterHeader := by
  unfold loadPrListFile
  rw [hvalid]
  simp

/-- Witness for C6 at the reference header itself. -/
theorem loadPrListFile_headerOnly_error_witness :
    loadPrListFile (fun s => !s.isEmpty) referenceCSVheader [] =
      Except.error LoadError.noDataAfterHeader :=
  loadPrListFile_headerOnly_error (fun s => !s.isEmpty) referenceCSVheader (by decide)

/-! ### C1 -/

/-- C1: contrary to the claim, a file with a valid header and exactly one
valid data row is rejected: the guard requires at least two data rows after
the header, so the single-row file takes the empty-data exit even though the
row itself passes every field check and would format as acme/widget-api/42. -/
theorem loadPrListFile_single_row_rejected :
    loadPrListFile (fun s => !s.isEmpty) referenceCSVheader [sampleRow "42"] =
      Except.error LoadError.noDataAfterHeader ∧
    checkRows (fun s => !s.isEmpty) [sampleRow "42"] =
      Except.ok ["acme/widget-api/42"] := by
  exact ⟨by decide, by decide⟩

/-! ### Batch loop accounting and orchestrator traces -/

theorem accountLoop_acc (counts : List Int) :
    ∀ acc : BatchAccounting,
      accountLoop acc counts =
        ⟨acc.nbrPR_noComment + (counts.filter (fun n => n == 0)).length,
         acc.nbrPR_withComments + (counts.filter (fun n => !(n == 0))).length,
         acc.totalComments + counts.sum⟩ := by
  induction counts with
  | nil => intro acc; cases acc; simp [accountLoop]
  | cons n rest ih =>
    intro acc
    cases acc with
    | mk a b c =>
      rw [accountLoop]
      by_cases hn : (n == 0) = true
      · rw [if_pos hn, ih]
        rw [List.filter_cons_of_pos (by simpa using hn),
            List.filter_cons_of_neg (by simp [hn]), List.sum_cons]
        simp only [BatchAccounting.mk.injEq, List.length_cons]
        refine ⟨?_, ?_, ?_⟩ <;> first | trivial | omega
      · rw [Bool.not_eq_true] at hn
        rw [hn]
        simp only [Bool.false_eq_true, if_false, ih]
        rw [List.filter_cons_of_neg (by simp [hn]),
            List.filter_cons_of_pos (by simp [hn]), List.sum_cons]
        simp only [BatchAccounting.mk.injEq, List.length_cons]
        refine ⟨?_, ?_, ?_⟩ <;> first | trivial | omega

/-- When the load succeeds, the whole run is: the conditional deletion of the
pre-existing output file, one quota pre-flight check, then either the quota
abort or one fetch per work item with the append flag forced to true,
followed by the final report. -/
theorem performAction_ok_eq (env : Env) (prList : List String)
    (hload : loadPrListFile env.isValidOrgFormat env.headerLine env.records =
      Except.ok prList) :
    performAction env =
      (if env.globalIsAppend = false then
         (if env.outputFileExists then [Event.removeOutput] else [])
       else []) ++ Event.quotaCheck prList.length ::
      (if env.quotaSufficient = false then [Event.quotaAbort]
       else
         prList.map (fun prLine => Event.fetch prLine true env.globalIsNoHeader)
           ++ [Event.report (accountLoop ⟨0, 0, 0⟩ (prList.map env.commentCount))]) := by
  unfold performAction
  rw [hload]
  cases hga : env.globalIsAppend <;> cases hq : env.quotaSufficient <;> simp

/-! ### C7 -/

/-- C7: the final accounting over the comment counts returned by the fetch
collaborator has: no-comment tally the number of items with count exactly
zero, with-comments tally the number of items with nonzero count, and total
the sum of all counts; the counts 0, 3, 0 yield the tallies 2, 1, 3; and the
report event of a completed run carries exactly this accounting of the
fetched counts. -/
theorem accountLoop_closedForm :
    (∀ counts : List Int,
       accountLoop ⟨0, 0, 0⟩ counts =
         ⟨(counts.filter (fun n => n == 0)).length,
          (counts.filter (fun n => !(n == 0))).length,
          counts.sum⟩) ∧
    accountLoop ⟨0, 0, 0⟩ [0, 3, 0] = ⟨2, 1, 3⟩ ∧
    (∀ (env : Env) (prList : List String),
       loadPrListFile env.isValidOrgFormat env.headerLine env.records =
         Except.ok prList →
       env.quotaSufficient = true →
       Event.report (accountLoop ⟨0, 0, 0⟩ (prList.map env.commentCount)) ∈
         performAction env) := by
  refine ⟨?_, by decide, ?_⟩
  · intro counts
    rw [accountLoop_acc]
    simp
  · intro env prList hload hq
    rw [performAction_ok_eq env prList hload, hq]
    simp

/-- Witness for C7: the report of a concrete two-item run in which the fetch
collaborator returns zero comments for each item. -/
theorem accountLoop_closedForm_witness :
    Event.report (accountLoop ⟨0, 0, 0⟩
        ((["acme/widget-api/42", "acme/widget-api/43"] : List String).map
          (fun _ => (0 : Int)))) ∈
      performAction ⟨referenceCSVheader, [sampleRow "42", sampleRow "43"],
        (fun s => !s.isEmpty), true, false, false, true, fun _ => (0 : Int)⟩ :=
  accountLoop_closedForm.2.2
    ⟨referenceCSVheader, [sampleRow "42", sampleRow "43"],
      (fun s => !s.isEmpty), true, false, false, true, fun _ => (0 : Int)⟩
    ["acme/widget-api/42", "acme/widget-api/43"] (by decide) rfl

/-! ### C8 -/

/-- C8: when the load succeeds the quota pre-flight check appears exactly
once in the run, before the batch loop, and when the quota guard finds the
remaining quota insufficient for the work-list length the batch aborts there
and the fetch collaborator is never invoked for any item. -/
theorem performAction_quota_preflight (env : Env) (prList : List String)
    (hload : loadPrListFile env.isValidOrgFormat env.headerLine env.records =
      Except.ok prList) :
    (∃ front tail,
       performAction env = front ++ Event.quotaCheck prList.length :: tail ∧
       (∀ e ∈ front, e.isFetch = false ∧ e.isQuotaCheck = false) ∧
       (∀ e ∈ tail, e.isQuotaCheck = false)) ∧
    (env.quotaSufficient = false → ∀ e ∈ performAction env, e.isFetch = false) := by
  have heq := performAction_ok_eq env prList hload
  constructor
  · refine ⟨_, _, heq, ?_, ?_⟩
    · intro e he
      split at he
      · split at he
        · rcases List.mem_singleton.mp he with rfl
          exact ⟨rfl, rfl⟩
        · cases he
      · cases he
    · intro e he
      split at he
      · rcases List.mem_singleton.mp he with rfl
        rfl
      · rcases List.mem_append.mp he with hmap | hrep
        · rcases List.mem_map.mp hmap with ⟨s, hs, rfl⟩
          rfl
        · rcases List.mem_singleton.mp hrep with rfl
          rfl
  · intro hq e he
    rw [heq, if_pos hq] at he
    rcases List.mem_append.mp he with hfront | hcons
    · split at hfront
      · split at hfront
        · rcases List.mem_singleton.mp hfront with rfl
          rfl
        · cases hfront
      · cases hfront
    · rcases List.mem_cons.mp hcons with rfl | htail
      · rfl
      · rcases List.mem_singleton.mp htail with rfl
        rfl

/-- Witness for C8: a two-item run with insufficient quota contains no fetch
event at all. -/
theorem performAction_quota_preflight_witness :
    (performAction ⟨referenceCSVheader, [sampleRow "42", sampleRow "43"],
        (fun s => !s.isEmpty), true, false, false, false, fun _ => (0 : Int)⟩).all
      (fun e => ! e.isFetch) = true := by
  rw [List.all_eq_true]
  intro e he
  have h := (performAction_quota_preflight
    ⟨referenceCSVheader, [sampleRow "42", sampleRow "43"],
      (fun s => !s.isEmpty), true, false, false, false, fun _ => (0 : Int)⟩
    ["acme/widget-api/42", "acme/widget-api/43"] (by decide)).2 rfl e he
  rw [h]
  rfl

/-! ### C9 -/

/-- C9: when loading or validating the input file fails, performAction prints
the diagnostic and terminates with exit status 1 at once: the trace is
exactly the error message followed by the exit, so the output file is never
deleted and no fetch happens. -/
theorem performAction_load_failure (env : Env) (e : LoadError)
    (hload : loadPrListFile env.isValidOrgFormat env.headerLine env.records =
      Except.error e) :
    performAction env = [Event.errorMessage, Event.exitProcess 1] ∧
    Event.removeOutput ∉ performAction env ∧
    ∀ ev ∈ performAction env, ev.isFetch = false := by
  have heq : performAction env = [Event.errorMessage, Event.exitProcess 1] := by
    unfold performAction
    rw [hload]
  refine ⟨heq, ?_, ?_⟩
  · rw [heq]
    decide
  · intro ev hev
    rw [heq] at hev
    rcases List.mem_cons.mp hev with rfl | hev2
    · rfl
    · rcases List.mem_singleton.mp hev2 with rfl
      rfl

/-- Witness for C9: a header with the last column missing makes the run exit
with status 1 immediately after the diagnostic. -/
theorem performAction_load_failure_witness :
    performAction ⟨["org", "repository", "number", "url", "state", "created_at",
        "merged_at", "user.login", "month_year"],
      [sampleRow "42", sampleRow "43"], (fun s => !s.isEmpty),
      false, false, true, true, fun _ => (0 : Int)⟩ =
      [Event.errorMessage, Event.exitProcess 1] :=
  (performAction_load_failure _ LoadError.headerIncorrect (by decide)).1

/-! ### C10 -/

/-- C10: in every run that reaches the batch loop, the append argument passed
to the fetch collaborator is true for every work item, whatever the
user-selected append flag was; and with append mode off a pre-existing
output file is deleted before the loop, so fresh-file semantics come from
the deletion alone. -/
theorem performAction_append_forced_true (env : Env) (prList : List String)
    (hload : loadPrListFile env.isValidOrgFormat env.headerLine env.records =
      Except.ok prList) :
    (∀ (prLine : String) (app nh : Bool),
       Event.fetch prLine app nh ∈ performAction env → app = true) ∧
    (env.globalIsAppend = false → env.outputFileExists = true →
       Event.removeOutput ∈ performAction env) := by
  have heq := performAction_ok_eq env prList hload
  constructor
  · intro prLine app nh hmem
    rw [heq] at hmem
    rcases List.mem_append.mp hmem with hfront | hcons
    · split at hfront
      · split at hfront
        · rcases List.mem_singleton.mp hfront with h
          cases h
        · cases hfront
      · cases hfront
    · rcases List.mem_cons.mp hcons with h | htail
      · cases h
      · split at htail
        · rcases List.mem_singleton.mp htail with h
          cases h
        · rcases List.mem_append.mp htail with hmap | hrep
          · rcases List.mem_map.mp hmap with ⟨s, hs, hfs⟩
            injection hfs with h1 h2 h3
            exact h2.symm
          · rcases List.mem_singleton.mp hrep with h
            cases h
  · intro hga hof
    rw [heq, if_pos hga]
    simp [hof]

/-- Witness for C10: a non-append run over two valid rows deletes the
pre-existing output file and every fetch in its trace carries a true append
flag. -/
theorem performAction_append_forced_true_witness :
    Event.removeOutput ∈ performAction ⟨referenceCSVheader,
      [sampleRow "42", sampleRow "43"], (fun s => !s.isEmpty),
      false, false, true, true, fun _ => (2 : Int)⟩ ∧
    (performAction ⟨referenceCSVheader,
      [sampleRow "42", sampleRow "43"], (fun s => !s.isEmpty),
      false, false, true, true, fun _ => (2 : Int)⟩).all
      (fun e => match e with
        | Event.fetch _ app _ => app
        | _ => true) = true :=
  ⟨(performAction_append_forced_true _ ["acme/widget-api/42", "acme/widget-api/43"]
      (by decide)).2 rfl rfl,
   by decide⟩

end GetCommenters
